import Mathlib

/-!
Verification development for the DataDeduper record-cleaning and
deduplication engine (`app/deduper.py`, schema from `app/data_structure.py`).

The engine reads a tabular batch, cleans every column according to the
schema's per-column rules (`__clean_data_v2`), stages a candidate set into a
scratch table, joins it against the persistent table on the target column
(`Phone`) to obtain the match set, optionally purges matched rows and commits
the remainder, resets the scratch table, and classifies every cleaned record
as Unique / Duplicate / In-file / In-file & DB.

Strings are modelled as Lean `String`; the regex character class `\w` is
modelled over ASCII (letters, digits, underscore).  The pandas date parser
used by the `valid_dob` rule (`pd.to_datetime` + `strftime('%Y-%m-%d')`) is
external-library code and is modelled as an abstract normalizer
`parse : String → Option String` returning the canonical `YYYY-MM-DD`
rendering on success; the properties of it that proofs need are stated as
explicit hypotheses (`DobParserOK`).
-/

namespace DataDeduper

/-- ASCII model of the regex class `\w` used throughout `__clean_data_v2`. -/
def isWordChar (c : Char) : Bool := c.isAlpha || c.isDigit || c == '_'

/-- ASCII model of the regex class `\s`. -/
def isSpaceChar (c : Char) : Bool := c == ' ' || c == '\t' || c == '\n' || c == '\r'

/-- Keep exactly the characters satisfying `p` (model of `str.replace(pattern, '')`). -/
def filterChars (p : Char → Bool) (s : String) : String := String.mk (s.toList.filter p)

/-- Rule `remove_zeros`: `column_data.str.replace('0', '')`. -/
def removeZeros (s : String) : String := filterChars (fun c => !(c == '0')) s

/-- Rule `remove_spaces`: `column_data.str.replace(' ', '')`. -/
def removeSpaces (s : String) : String := filterChars (fun c => !(c == ' ')) s

/-- Rule `remove_special_chars`: `str.replace(r'[^\w\s]', '')`. -/
def removeSpecialChars (s : String) : String :=
  filterChars (fun c => isWordChar c || isSpaceChar c) s

/-- Rule `alphanumeric_only`: `str.replace(r'[^\w]', '')`. -/
def alphanumericOnly (s : String) : String := filterChars isWordChar s

/-- The character set allowed by the `allowed_special_chars` rule of the
Address and City columns (space, dot, apostrophe, backslash-hyphen escape,
slash, doubled backslash), plus word characters; `Char.ofNat 39` is the
apostrophe. -/
def addressAllowedChar (c : Char) : Bool :=
  c == ' ' || c == '.' || c == Char.ofNat 39 || c == '-' || c == '/' || c == '\\' || isWordChar c

/-- Rule `allowed_special_chars` as configured for Address/City. -/
def keepAddressChars (s : String) : String := filterChars addressAllowedChar s

/-- The `column_data.where(cond, '')` shape shared by the validating rules:
keep the value when the condition holds, else blank it. -/
def guardRule (c : String → Bool) (s : String) : String := if c s then s else ""

/-- Character class of the first-name regex `^[a-zA-Z \-]+$`. -/
def firstNameChar (c : Char) : Bool := c.isAlpha || c == ' ' || c == '-'

/-- `column_data.str.match(r'^[a-zA-Z \-]+$')`. -/
def matchesFirstNamePat (s : String) : Bool := !s.isEmpty && s.toList.all firstNameChar

/-- The Python value of `column_data.isin(['Jo', 'Ed'])` as the integer it is
coerced to by the bitwise-or with `3` (True = 1, False = 0). -/
def firstNameAllowNum (s : String) : Nat := if s = "Jo" || s = "Ed" then 1 else 0

/-- Rule `valid_first_name` (line 215): the source expression
`column_data.str.len() >= 3 | column_data.isin(['Jo', 'Ed'])` parses, by
Python operator precedence, as `len >= (3 | isin)`, i.e. `len >= Nat.lor 3 b`,
conjoined with the pattern match. -/
def validFirstName (s : String) : String :=
  guardRule (fun v => decide (Nat.lor 3 (firstNameAllowNum v) ≤ v.length)
    && matchesFirstNamePat v) s

/-- Character class of the last-name regex `^[a-zA-Z \-']+$`
(Char.ofNat 39 is the apostrophe). -/
def lastNameChar (c : Char) : Bool := c.isAlpha || c == ' ' || c == '-' || c == Char.ofNat 39

/-- Rule `valid_last_name`: blank the value unless it matches `^[a-zA-Z \-']+$`. -/
def validLastName (s : String) : String :=
  guardRule (fun v => !v.isEmpty && v.toList.all lastNameChar) s

/-- Characters of the email regex local part `[\w\-\.]`. -/
def emailLocalChar (c : Char) : Bool := isWordChar c || c == '-' || c == '.'

/-- Characters of the email regex domain labels `[\w\-]`. -/
def emailLabelChar (c : Char) : Bool := isWordChar c || c == '-'

/-- `str.match(r"^[\w\-\.]+@([\w\-]+\.)+[\w\-]{2,4}$")`: exactly one `@`;
nonempty local part over `[\w\-\.]`; domain of dot-separated nonempty labels
over `[\w\-]`, at least two components, the last 2 to 4 characters long. -/
def matchesEmail (s : String) : Bool :=
  match s.splitOn "@" with
  | [loc, dom] =>
    (!loc.isEmpty && loc.toList.all emailLocalChar) &&
    (let parts := dom.splitOn "."
     decide (2 ≤ parts.length)
       && parts.all (fun p => !p.isEmpty && p.toList.all emailLabelChar)
       && (match parts.getLast? with
           | some t => decide (2 ≤ t.length) && decide (t.length ≤ 4)
           | none => false))
  | _ => false

/-- Rule `valid_email`. -/
def validEmailRule (s : String) : String := guardRule matchesEmail s

/-- Rule `exact_length`. -/
def exactLengthRule (n : Nat) (s : String) : String :=
  guardRule (fun v => v.length == n) s

/-- Rule `min_length`. -/
def minLengthRule (n : Nat) (s : String) : String :=
  guardRule (fun v => decide (n ≤ v.length)) s

/-- Rule `max_length`. -/
def maxLengthRule (n : Nat) (s : String) : String :=
  guardRule (fun v => decide (v.length ≤ n)) s

/-- Rule `starts_with`. -/
def startsWithRule (p : String) (s : String) : String :=
  guardRule (fun v => v.startsWith p) s

/-- Rule `valid_dob`: `pd.to_datetime(..., errors='coerce')` followed by
`strftime('%Y-%m-%d')`, with `where(valid & nonempty, "\N")`.  The parser is
abstract: `parse s = some f` means the value parses and `f` is its canonical
`YYYY-MM-DD` rendering; failures and empty inputs become the null marker. -/
def validDob (parse : String → Option String) (s : String) : String :=
  if s = "" then "\\N"
  else match parse s with
    | some f => f
    | none => "\\N"

/-- The two facts about the pandas date normalizer the proofs rely on:
a canonical rendering is nonempty and re-parses to itself, and the null
marker `\N` does not parse. -/
def DobParserOK (parse : String → Option String) : Prop :=
  (∀ s f, parse s = some f → f ≠ "" ∧ parse f = some f) ∧ parse "\\N" = none

/-- A record of the batch, one field per non-primary-key column of the
schema in `data_structure.py` (labels Title, First Name, Last Name, Phone,
Email, Address, City, Postcode, DOB, Supplier, BSC, Delivery). -/
structure Row where
  title : String
  firstName : String
  lastName : String
  phone : String
  email : String
  address : String
  city : String
  postcode : String
  dob : String
  supplier : String
  bsc : String
  delivery : String
deriving DecidableEq, Repr

/-- Title: `remove_zeros` then `remove_special_chars` (source rule order). -/
def cleanTitle (s : String) : String := removeSpecialChars (removeZeros s)

/-- Postcode: `remove_spaces`, `alphanumeric_only`, `min_length 5`,
`max_length 8`, in source rule order. -/
def cleanPostcode (s : String) : String :=
  maxLengthRule 8 (minLengthRule 5 (alphanumericOnly (removeSpaces s)))

/-- Phone: `exact_length 10` then `starts_with '7'`. -/
def cleanPhone (s : String) : String := startsWithRule "7" (exactLengthRule 10 s)

/-- Supplier: `alphanumeric_only` then `min_length 1`. -/
def cleanSupplier (s : String) : String := minLengthRule 1 (alphanumericOnly s)

/-- One pass of `__clean_data_v2` over a single record: each column's value
is replaced by the result of its rule chain (NaN already replaced by `''`). -/
def cleanRow (parse : String → Option String) (r : Row) : Row :=
  { title := cleanTitle r.title
    firstName := validFirstName r.firstName
    lastName := validLastName r.lastName
    phone := cleanPhone r.phone
    email := validEmailRule r.email
    address := keepAddressChars r.address
    city := keepAddressChars r.city
    postcode := cleanPostcode r.postcode
    dob := validDob parse r.dob
    supplier := cleanSupplier r.supplier
    bsc := maxLengthRule 8 r.bsc
    delivery := r.delivery }

/-- The `_delete` mark: a row is kept iff every required column (Phone and
Supplier in the schema) is non-blank after its rules ran. -/
def requiredOk (r : Row) : Bool := !(r.phone == "") && !(r.supplier == "")

/-- One full `__clean_data_v2` pass: clean every column of every row, then
delete the rows marked for deletion (required column blank). -/
def cleanBatch (parse : String → Option String) (rows : List Row) : List Row :=
  (rows.map (cleanRow parse)).filter requiredOk

/-- The duplicate-key (target column) of a record: `Phone` in the schema. -/
def rowKey (r : Row) : String := r.phone

/-- `dataframe_to_insert.replace('\n', '\t', regex=True)` on one cell. -/
def replaceNl (s : String) : String :=
  String.mk (s.toList.map (fun c => if c == '\n' then '\t' else c))

/-- The newline replacement applied to every cell of a staged row. -/
def rowReplaceNl (r : Row) : Row :=
  { title := replaceNl r.title
    firstName := replaceNl r.firstName
    lastName := replaceNl r.lastName
    phone := replaceNl r.phone
    email := replaceNl r.email
    address := replaceNl r.address
    city := replaceNl r.city
    postcode := replaceNl r.postcode
    dob := replaceNl r.dob
    supplier := replaceNl r.supplier
    bsc := replaceNl r.bsc
    delivery := replaceNl r.delivery }

/-- A check-only staged row: only the target column is loaded, the other
columns are left NULL (modelled as `""`). -/
def keyOnlyRow (k : String) : Row :=
  { title := "", firstName := "", lastName := "", phone := k, email := ""
    address := "", city := "", postcode := "", dob := "", supplier := ""
    bsc := "", delivery := "" }

/-- `drop_duplicates(subset=target_label, keep='first')`: keep the first
occurrence of every key value. -/
def dedupFirstAux (seen : List String) : List Row → List Row
  | [] => []
  | r :: rs =>
    if rowKey r ∈ seen then dedupFirstAux seen rs
    else r :: dedupFirstAux (rowKey r :: seen) rs

/-- First-occurrence deduplication by the target column. -/
def dedupFirst (rows : List Row) : List Row := dedupFirstAux [] rows

/-- `__prepare_data`: in commit mode stage one full row per distinct key
(first occurrence wins); in check-only mode stage one key-only row per
occurrence; in both modes replace newlines by tabs in every cell. -/
def prepareData (addToDb : Bool) (batch : List Row) : List Row :=
  if addToDb then (dedupFirst batch).map rowReplaceNl
  else (batch.map (fun r => keyOnlyRow (rowKey r))).map rowReplaceNl

/-- The persistent-store state seen by one run: the main data table, the
`temp_data` scratch table, and the ephemeral `duplicates` table. -/
structure DBState where
  main : List Row
  temp : List Row
  dups : List Row
deriving DecidableEq, Repr

/-- `__insert_temp_data`: `copy_from` appends the staged rows to `temp_data`. -/
def stageTemp (rows : List Row) (s : DBState) : DBState := { s with temp := s.temp ++ rows }

/-- The projection `select temp_data.<required columns>` used by the join:
the phone and supplier values of the temp row, other columns NULL. -/
def requiredProj (t : Row) : Row := { keyOnlyRow (rowKey t) with supplier := t.supplier }

/-- `__join_tables`: `select temp_data.<required> into duplicates from
temp_data inner join <main> on temp_data.phone = <main>.phone` — one output
row per matching (temp row, main row) pair. -/
def joinTables (s : DBState) : DBState :=
  { s with dups :=
      s.temp.flatMap (fun t =>
        (s.main.filter (fun m => rowKey m == rowKey t)).map (fun _ => requiredProj t)) }

/-- `__remove_duplicates_from_temp_table`: delete every temp row whose key
appears in the duplicates table. -/
def removeDuplicatesFromTempTable (s : DBState) : DBState :=
  { s with temp := s.temp.filter (fun r => !((s.dups.map rowKey).contains (rowKey r))) }

/-- `__insert_into_main_data_table`: append all remaining temp rows. -/
def insertIntoMainDataTable (s : DBState) : DBState := { s with main := s.main ++ s.temp }

/-- `__reset_temp_data_table`: `truncate table temp_data`. -/
def resetTempDataTable (s : DBState) : DBState := { s with temp := [] }

/-- `drop table if exists duplicates` (end of `__generate_report`). -/
def dropDuplicatesTable (s : DBState) : DBState := { s with dups := [] }

/-- `__get_duplicates_table`: `select phone from duplicates`. -/
def getDuplicatesTable (s : DBState) : List String := s.dups.map rowKey

/-- The four classifications of `__generate_report` (code string
`"In-file & DB"` is the spec's `In-file&Store`). -/
inductive Classification where
  | unique
  | duplicate
  | inFile
  | inFileDb
deriving DecidableEq, Repr

/-- Number of occurrences of key `k` in the cleaned batch (all positions). -/
def keyOccurrences (batch : List Row) (k : String) : Nat :=
  (batch.filter (fun r => rowKey r == k)).length

/-- The three `np.where` steps of `__generate_report` (lines 384-386):
`duplicated(keep=False)` sets 2; `isin(data) & (== 0)` sets 1;
`isin(data) & (== 2)` sets 3. -/
def resultCode (batch : List Row) (data : List String) (r : Row) : Nat :=
  let c0 := if 1 < keyOccurrences batch (rowKey r) then 2 else 0
  let c1 := if data.contains (rowKey r) && (c0 == 0) then 1 else c0
  if data.contains (rowKey r) && (c1 == 2) then 3 else c1

/-- The `replace({0: "Unique", 1: "Duplicate", 2: "In-file", 3: "In-file & DB"})`
mapping; the codes produced are always in `{0,1,2,3}`. -/
def codeToClassification : Nat → Classification
  | 0 => .unique
  | 1 => .duplicate
  | 2 => .inFile
  | _ => .inFileDb

/-- The classification the report assigns to one cleaned record, given the
key values read back from the duplicates table. -/
def classifyRowStr (batch : List Row) (data : List String) (r : Row) : Classification :=
  codeToClassification (resultCode batch data r)

/-- The classification algorithm exactly as the claim states it: key occurs
more than once and in the match set → In-file&Store; more than once, not in
the match set → In-file; once and in the match set → Duplicate; else Unique. -/
def specClassify (batch : List Row) (matchKeys : List String) (r : Row) : Classification :=
  if 1 < keyOccurrences batch (rowKey r) then
    (if matchKeys.contains (rowKey r) then .inFileDb else .inFile)
  else
    (if matchKeys.contains (rowKey r) then .duplicate else .unique)

/-- The `Result` column of the report: one classification per cleaned record. -/
def reportColumn (batch : List Row) (data : List String) : List Classification :=
  batch.map (classifyRowStr batch data)

/-- One fault-free run of `dedupe()` from staging on: stage, join, in commit
mode purge matches and insert the remainder, reset the scratch table, read
the match keys back and classify.  Returns the final store state, the match
keys, and the report column. -/
def runDedupe (addToDb : Bool) (batch : List Row) (s0 : DBState) :
    DBState × List String × List Classification :=
  let s1 := stageTemp (prepareData addToDb batch) s0
  let s2 := joinTables s1
  let s3 := if addToDb then insertIntoMainDataTable (removeDuplicatesFromTempTable s2) else s2
  let s4 := resetTempDataTable s3
  let data := getDuplicatesTable s4
  (dropDuplicatesTable s4, data, reportColumn batch data)

/-- The rows `__insert_into_main_data_table` appends in commit mode: the
staged rows left in `temp_data` after the purge. -/
def committedRows (batch : List Row) (s0 : DBState) : List Row :=
  (removeDuplicatesFromTempTable (joinTables (stageTemp (prepareData true batch) s0))).temp

/-- The match-key values produced by staging the mode-dependent candidate
set against a given main table and joining. -/
def matchKeysFor (addToDb : Bool) (batch : List Row) (mainRows : List Row) : List String :=
  getDuplicatesTable (joinTables { main := mainRows, temp := prepareData addToDb batch, dups := [] })

/-- The persistence steps of a run that can fail (§7 of the spec). -/
inductive DbStep where
  | stage
  | join
  | purge
  | insertMain
  | reset
deriving DecidableEq

/-- Run one persistence step under fault injection: a faulted step raises,
leaving the store state as it was. -/
def runStep (faults : DbStep → Bool) (st : DbStep) (f : DBState → DBState) (s : DBState) :
    Except DBState DBState :=
  if faults st then .error s else .ok (f s)

/-- `dedupe()` (lines 136-154) with fault injection: the steps run in source
order with no try/finally; an exception propagates immediately and the state
in the `error` result is the store state at the moment of failure. -/
def dedupeRun (faults : DbStep → Bool) (addToDb : Bool) (batch : List Row) (s0 : DBState) :
    Except DBState (DBState × List String × List Classification) :=
  match runStep faults .stage (stageTemp (prepareData addToDb batch)) s0 with
  | .error s => .error s
  | .ok s1 =>
    match runStep faults .join joinTables s1 with
    | .error s => .error s
    | .ok s2 =>
      match (if addToDb then
               match runStep faults .purge removeDuplicatesFromTempTable s2 with
               | .error s => Except.error s
               | .ok sA => runStep faults .insertMain insertIntoMainDataTable sA
             else Except.ok s2) with
      | .error s => .error s
      | .ok s3 =>
        match runStep faults .reset resetTempDataTable s3 with
        | .error s => .error s
        | .ok s4 =>
          .ok (dropDuplicatesTable s4, getDuplicatesTable s4,
               reportColumn batch (getDuplicatesTable s4))

/-- Fault set making exactly the join step fail. -/
def joinFaultOnly : DbStep → Bool := fun st => st == DbStep.join

/-- The empty fault set. -/
def noFaults : DbStep → Bool := fun _ => false

/-- The labels of the required columns, in schema order (`phone`, then
`supplier_name`). -/
def requiredLabels : List String := ["Phone", "Supplier"]

/-- The message `MissingRequiredColumns` is raised with: the join of ALL
required labels, as in line 274. -/
def missingColumnsMessage : String :=
  "Required columns missing: " ++ String.intercalate ", " requiredLabels

/-- `__check_required_columns`: raise iff the required labels are not a
subset of the header. -/
def checkRequiredColumns (header : List String) : Except String Unit :=
  if requiredLabels.all (fun l => header.contains l) then .ok ()
  else .error missingColumnsMessage

/-- A raw input row as read by `pd.read_csv(dtype=str)`: `none` is a blank
(NA) cell. -/
structure RawRow where
  title : Option String
  firstName : Option String
  lastName : Option String
  phone : Option String
  email : Option String
  address : Option String
  city : Option String
  postcode : Option String
  dob : Option String
  supplier : Option String
  bsc : Option String
  delivery : Option String
deriving DecidableEq, Repr

/-- The `dropna(how='all')` condition: every cell of the row is NA. -/
def rawRowAllNa (r : RawRow) : Bool :=
  r.title.isNone && r.firstName.isNone && r.lastName.isNone && r.phone.isNone
    && r.email.isNone && r.address.isNone && r.city.isNone && r.postcode.isNone
    && r.dob.isNone && r.supplier.isNone && r.bsc.isNone && r.delivery.isNone

/-- The claim-side condition: the row has at least one non-blank field. -/
def rawRowHasValue (r : RawRow) : Bool :=
  r.title.isSome || r.firstName.isSome || r.lastName.isSome || r.phone.isSome
    || r.email.isSome || r.address.isSome || r.city.isSome || r.postcode.isSome
    || r.dob.isSome || r.supplier.isSome || r.bsc.isSome || r.delivery.isSome

/-- `__read_data_file`: read the batch, then `dropna(how='all')`. -/
def readDataFile (raw : List RawRow) : List RawRow :=
  raw.filter (fun r => !rawRowAllNa r)

/-- `fillna('')` on one cell. -/
def fillNa (o : Option String) : String := o.getD ""

/-- A raw row with NA cells replaced by `''` (the `fillna` at the start of
each column's cleaning). -/
def rawToRow (r : RawRow) : Row :=
  { title := fillNa r.title, firstName := fillNa r.firstName
    lastName := fillNa r.lastName, phone := fillNa r.phone
    email := fillNa r.email, address := fillNa r.address
    city := fillNa r.city, postcode := fillNa r.postcode
    dob := fillNa r.dob, supplier := fillNa r.supplier
    bsc := fillNa r.bsc, delivery := fillNa r.delivery }

/-- The whole pipeline from the raw file to the summary's
`total_input_rows` figure: read (dropping all-blank rows), record
`self.total_rows = len(self.dataframe)` (line 174, before any rule ran),
clean, run the staging/join/classify machinery; the last component is the
`self.total_rows` figure the summary reports. -/
def fullRun (parse : String → Option String) (addToDb : Bool) (raw : List RawRow)
    (s0 : DBState) : DBState × List Classification × Nat :=
  let df := readDataFile raw
  let total := df.length
  let batch := cleanBatch parse (df.map rawToRow)
  let res := runDedupe addToDb batch s0
  (res.1, res.2.2, total)

/-- The retained helper `apply_valid_first_name_rule` (lines 258-263): strip
characters outside letters and spaces, then blank the value iff it is
shorter than 3 characters and not one of the allow-listed names. -/
def applyValidFirstNameRule (s : String) : String :=
  let v := filterChars (fun c => c.isAlpha || c == ' ') s
  if v.length < 3 && !(v = "Jo" || v = "Ed") then "" else v

/-- A concrete date normalizer used to witness `DobParserOK`: parses exactly
the canonical string `2020-01-01`. -/
def toyDobParse : String → Option String :=
  fun s => if s = "2020-01-01" then some "2020-01-01" else none

/-- A sample cleaned record used by the concrete witnesses. -/
def row0 : Row :=
  { title := "Mr", firstName := "John", lastName := "Smith", phone := "7000000001"
    email := "john@mail.com", address := "1 High St.", city := "Leeds"
    postcode := "LS11AB", dob := "2020-01-01", supplier := "Acme", bsc := ""
    delivery := "" }

/-- A second sample record sharing no key with `row0`. -/
def row1 : Row :=
  { title := "Ms", firstName := "Jane", lastName := "Brown", phone := "7000000002"
    email := "jane@mail.com", address := "2 Low St.", city := "York"
    postcode := "YO11AB", dob := "2020-01-01", supplier := "Acme", bsc := ""
    delivery := "" }

/-- The empty store state. -/
def emptyState : DBState := { main := [], temp := [], dups := [] }

/-- The store state `dedupeRun` propagates when the join step fails after a
check-only staging of `[row0]`: the staged key-only rows are still in
`temp_data`. -/
def c3ErrState : DBState := { main := [], temp := prepareData false [row0], dups := [] }

theorem filterChars_eq_self {p : Char → Bool} {s : String}
    (h : ∀ c ∈ s.toList, p c = true) : filterChars p s = s := by
  unfold filterChars
  rw [List.filter_eq_self.mpr h]
  rfl

theorem mem_filterChars {p : Char → Bool} {s : String} {c : Char}
    (h : c ∈ (filterChars p s).toList) : p c = true ∧ c ∈ s.toList := by
  have h' : c ∈ s.toList.filter p := h
  exact ⟨List.of_mem_filter h', List.mem_of_mem_filter h'⟩

theorem filterChars_idem {p : Char → Bool} {s : String} :
    filterChars p (filterChars p s) = filterChars p s :=
  filterChars_eq_self (fun _ hc => (mem_filterChars hc).1)

theorem guardRule_idem {c : String → Bool} {s : String} :
    guardRule c (guardRule c s) = guardRule c s := by
  unfold guardRule
  by_cases h : c s = true <;> simp [h]

theorem guard2_idem {c1 c2 : String → Bool} {s : String} :
    guardRule c2 (guardRule c1 (guardRule c2 (guardRule c1 s)))
      = guardRule c2 (guardRule c1 s) := by
  unfold guardRule
  by_cases h1 : c1 s = true <;> by_cases h2 : c2 s = true <;> simp [h1, h2]

theorem cleanTitle_idem (s : String) : cleanTitle (cleanTitle s) = cleanTitle s := by
  have h1 : removeZeros (cleanTitle s) = cleanTitle s :=
    filterChars_eq_self (fun c hc => (mem_filterChars (mem_filterChars hc).2).1)
  show removeSpecialChars (removeZeros (cleanTitle s)) = cleanTitle s
  rw [h1]
  exact filterChars_idem

theorem cleanPhone_idem (s : String) : cleanPhone (cleanPhone s) = cleanPhone s := by
  unfold cleanPhone startsWithRule exactLengthRule
  exact guard2_idem

theorem word_not_space {c : Char} (h : isWordChar c = true) : (!(c == ' ')) = true := by
  rcases h' : c == ' ' with _ | _
  · rfl
  · have hc : c = ' ' := beq_iff_eq.mp h'
    subst hc
    exact absurd h (by decide)

theorem alnum_rmSpaces_fix {u : String} (hu : ∀ c ∈ u.toList, isWordChar c = true) :
    alphanumericOnly (removeSpaces u) = u := by
  unfold removeSpaces
  rw [filterChars_eq_self (fun c hc => word_not_space (hu c hc))]
  exact filterChars_eq_self hu

theorem cleanPostcode_empty : cleanPostcode "" = "" := by rfl

theorem cleanPostcode_cases (s : String) :
    cleanPostcode s = ""
      ∨ (cleanPostcode s = alphanumericOnly (removeSpaces s)
          ∧ 5 ≤ (alphanumericOnly (removeSpaces s)).length
          ∧ (alphanumericOnly (removeSpaces s)).length ≤ 8) := by
  unfold cleanPostcode maxLengthRule minLengthRule guardRule
  by_cases h5 : 5 ≤ (alphanumericOnly (removeSpaces s)).length
  · by_cases h8 : (alphanumericOnly (removeSpaces s)).length ≤ 8
    · right; simp [h5, h8]
    · left; simp [h5, h8]
  · left; simp [h5]

theorem cleanPostcode_idem (s : String) :
    cleanPostcode (cleanPostcode s) = cleanPostcode s := by
  rcases cleanPostcode_cases s with h | ⟨h, h5, h8⟩
  · rw [h]; exact cleanPostcode_empty
  · rw [h]
    unfold cleanPostcode
    rw [alnum_rmSpaces_fix (u := alphanumericOnly (removeSpaces s))
      (fun c hc => (mem_filterChars hc).1)]
    unfold maxLengthRule minLengthRule guardRule
    simp [h5, h8]

theorem cleanSupplier_empty : cleanSupplier "" = "" := by rfl

theorem cleanSupplier_cases (s : String) :
    cleanSupplier s = ""
      ∨ (cleanSupplier s = alphanumericOnly s ∧ 1 ≤ (alphanumericOnly s).length) := by
  unfold cleanSupplier minLengthRule guardRule
  by_cases h1 : 1 ≤ (alphanumericOnly s).length
  · right; simp [h1]
  · left; simp [h1]

theorem cleanSupplier_idem (s : String) :
    cleanSupplier (cleanSupplier s) = cleanSupplier s := by
  rcases cleanSupplier_cases s with h | ⟨h, h1⟩
  · rw [h]; exact cleanSupplier_empty
  · rw [h]
    unfold cleanSupplier
    rw [show alphanumericOnly (alphanumericOnly s) = alphanumericOnly s from filterChars_idem]
    unfold minLengthRule guardRule
    simp [h1]

theorem validDob_null {parse : String → Option String} (hp : DobParserOK parse) :
    validDob parse "\\N" = "\\N" := by
  unfold validDob
  rw [if_neg (by decide), hp.2]

theorem validDob_idem {parse : String → Option String} (hp : DobParserOK parse)
    (s : String) : validDob parse (validDob parse s) = validDob parse s := by
  by_cases h0 : s = ""
  · have h1 : validDob parse s = "\\N" := by simp [validDob, h0]
    rw [h1]; exact validDob_null hp
  · cases hps : parse s with
    | none =>
      have h1 : validDob parse s = "\\N" := by simp [validDob, h0, hps]
      rw [h1]; exact validDob_null hp
    | some f =>
      obtain ⟨hf, hpf⟩ := hp.1 s f hps
      have h1 : validDob parse s = f := by simp [validDob, h0, hps]
      rw [h1]; simp [validDob, hf, hpf]

theorem validFirstName_idem (s : String) :
    validFirstName (validFirstName s) = validFirstName s := guardRule_idem

theorem validLastName_idem (s : String) :
    validLastName (validLastName s) = validLastName s := guardRule_idem

theorem validEmailRule_idem (s : String) :
    validEmailRule (validEmailRule s) = validEmailRule s := guardRule_idem

theorem keepAddressChars_idem (s : String) :
    keepAddressChars (keepAddressChars s) = keepAddressChars s := filterChars_idem

theorem bscRule_idem (s : String) :
    maxLengthRule 8 (maxLengthRule 8 s) = maxLengthRule 8 s := guardRule_idem

theorem cleanRow_idem (parse : String → Option String) (hp : DobParserOK parse)
    (r : Row) : cleanRow parse (cleanRow parse r) = cleanRow parse r := by
  simp only [cleanRow, cleanTitle_idem, validFirstName_idem, validLastName_idem,
    cleanPhone_idem, validEmailRule_idem, keepAddressChars_idem, cleanPostcode_idem,
    validDob_idem hp, cleanSupplier_idem, bscRule_idem]

theorem map_id_of_mem {α : Type} (f : α → α) (l : List α) (h : ∀ x ∈ l, f x = x) :
    l.map f = l := by
  induction l with
  | nil => rfl
  | cons a t ih =>
    simp only [List.map_cons, h a (by simp), List.cons.injEq, true_and]
    exact ih (fun x hx => h x (by simp [hx]))

/-- C8: Cleaning is a fixed point on cleaned batches: applying the rule-engine
cleaning pass (`__clean_data_v2` with the schema of `data_structure.py`) to a
batch that has already been cleaned once returns the same rows with the same
values, in the same order, removing no further rows.  The pandas date
normalizer is abstract, assumed to re-parse its own canonical output and to
reject the null marker (`DobParserOK`). -/
theorem cleaning_idempotent (parse : String → Option String) (hp : DobParserOK parse)
    (rows : List Row) :
    cleanBatch parse (cleanBatch parse rows) = cleanBatch parse rows := by
  unfold cleanBatch
  have hfix : ∀ r ∈ (rows.map (cleanRow parse)).filter requiredOk,
      cleanRow parse r = r := by
    intro r hr
    obtain ⟨r0, _, rfl⟩ := List.mem_map.mp (List.mem_of_mem_filter hr)
    exact cleanRow_idem parse hp r0
  rw [map_id_of_mem _ _ hfix]
  exact List.filter_eq_self.mpr (fun x hx => List.of_mem_filter hx)

/-- Witness for C8 at a concrete parser and batch. -/
theorem cleaning_idempotent_witness :
    DobParserOK toyDobParse
      ∧ cleanBatch toyDobParse (cleanBatch toyDobParse [row0])
          = cleanBatch toyDobParse [row0] := by
  have hp : DobParserOK toyDobParse := by
    constructor
    · intro s f h
      unfold toyDobParse at h
      split at h
      · cases h; exact ⟨by decide, rfl⟩
      · cases h
    · rfl
  exact ⟨hp, cleaning_idempotent toyDobParse hp [row0]⟩

/-- C6: the claim says the name-format validator keeps allow-listed short
names such as "Jo" unchanged.  In the code (line 215) the expression
`column_data.str.len() >= 3 | column_data.isin(['Jo', 'Ed'])` parses as
`len >= (3 | isin)`, which is `len >= 3` for every value, so the allow-list
is dead code and "Jo" is blanked — while the retained helper
`apply_valid_first_name_rule` (the documented intent) keeps "Jo". -/
theorem first_name_allowlist_dead_code :
    validFirstName "Jo" = "" ∧ applyValidFirstNameRule "Jo" = "Jo" := by
  constructor <;> rfl

/-- C1: the report's classifier implements exactly the four-way algorithm of
the claim: key occurring more than once in the cleaned batch and in the
match-key set → In-file&Store; more than once only → In-file; once and in the
match-key set → Duplicate; otherwise Unique — and each record gets exactly
one of the four (the codomain is the four-constructor type). -/
theorem report_classification_matches_claim (batch : List Row) (data : List String)
    (r : Row) (_hr : r ∈ batch) :
    classifyRowStr batch data r = specClassify batch data r := by
  by_cases hd : 1 < keyOccurrences batch (rowKey r) <;>
    by_cases hm : rowKey r ∈ data <;>
      simp [classifyRowStr, resultCode, specClassify, codeToClassification, hd, hm]

/-- Witness for C1 at a concrete record, batch and match-key set. -/
theorem report_classification_matches_claim_witness :
    classifyRowStr [row0] [] row0 = specClassify [row0] [] row0 :=
  report_classification_matches_claim [row0] [] row0 (by simp)

theorem count_partition (l : List Classification) :
    l.count .unique + l.count .duplicate + l.count .inFile + l.count .inFileDb
      = l.length := by
  induction l with
  | nil => rfl
  | cons a t ih => cases a <;> simp [List.count_cons] <;> omega

/-- C4: the per-classification counts of the report column sum to the total
classified row count, which equals the number of records in the cleaned
batch. -/
theorem classification_counts_conserved (batch : List Row) (data : List String) :
    (reportColumn batch data).count .unique + (reportColumn batch data).count .duplicate
        + (reportColumn batch data).count .inFile + (reportColumn batch data).count .inFileDb
      = (reportColumn batch data).length
    ∧ (reportColumn batch data).length = batch.length :=
  ⟨count_partition _, by simp [reportColumn]⟩

/-- C2: in commit mode the main table grows by exactly the purged staging
remainder, and every appended row's key was absent from the main table
before the run. -/
theorem commit_inserts_only_new_keys (batch : List Row) (s0 : DBState) :
    (runDedupe true batch s0).1.main = s0.main ++ committedRows batch s0
      ∧ ∀ r ∈ committedRows batch s0, rowKey r ∉ s0.main.map rowKey := by
  constructor
  · rfl
  · intro r hr hmem
    have hrt : r ∈ (joinTables (stageTemp (prepareData true batch) s0)).temp :=
      List.mem_of_mem_filter hr
    have hcond := List.of_mem_filter hr
    obtain ⟨m, hm, hkey⟩ := List.mem_map.mp hmem
    have hdup : rowKey r ∈ (joinTables (stageTemp (prepareData true batch) s0)).dups.map rowKey := by
      apply List.mem_map.mpr
      refine ⟨requiredProj r, ?_, rfl⟩
      apply List.mem_flatMap.mpr
      refine ⟨r, hrt, ?_⟩
      apply List.mem_map.mpr
      refine ⟨m, ?_, rfl⟩
      exact List.mem_filter.mpr ⟨hm, by simp [hkey]⟩
    have hc : ((joinTables (stageTemp (prepareData true batch) s0)).dups.map rowKey).contains
        (rowKey r) = true := List.elem_iff.mpr hdup
    rw [hc] at hcond
    exact absurd hcond (by simp)

/-- Witness for C2: committing the batch `[row0]` against a store holding
only `row1` appends a row whose key is new to the store. -/
theorem commit_inserts_only_new_keys_witness :
    rowKey row0 ∉ (DBState.mk [row1] [] []).main.map rowKey :=
  (commit_inserts_only_new_keys [row0] (DBState.mk [row1] [] [])).2 row0 (by decide)

theorem mem_joinKeys (s : DBState) (k : String) :
    k ∈ getDuplicatesTable (joinTables s)
      ↔ ∃ t ∈ s.temp, k = rowKey t ∧ ∃ m ∈ s.main, rowKey m = rowKey t := by
  constructor
  · intro hk
    obtain ⟨d, hd, hdk⟩ := List.mem_map.mp hk
    obtain ⟨t, ht, hdin⟩ := List.mem_flatMap.mp hd
    obtain ⟨m, hmf, hmd⟩ := List.mem_map.mp hdin
    have hmm := List.mem_filter.mp hmf
    refine ⟨t, ht, ?_, m, hmm.1, beq_iff_eq.mp hmm.2⟩
    rw [← hdk, ← hmd]
    rfl
  · rintro ⟨t, ht, hk, m, hm, hkey⟩
    apply List.mem_map.mpr
    refine ⟨requiredProj t, ?_, by rw [hk]; rfl⟩
    apply List.mem_flatMap.mpr
    exact ⟨t, ht, List.mem_map.mpr
      ⟨m, List.mem_filter.mpr ⟨hm, beq_iff_eq.mpr hkey⟩, rfl⟩⟩

theorem dedupFirstAux_keys_mem (seen : List String) (rows : List Row) (k : String) :
    k ∈ (dedupFirstAux seen rows).map rowKey ↔ k ∈ rows.map rowKey ∧ k ∉ seen := by
  induction rows generalizing seen with
  | nil => simp [dedupFirstAux]
  | cons r rs ih =>
    unfold dedupFirstAux
    by_cases hin : rowKey r ∈ seen
    · rw [if_pos hin, ih]
      simp only [List.map_cons, List.mem_cons]
      constructor
      · rintro ⟨hk, hks⟩
        exact ⟨Or.inr hk, hks⟩
      · rintro ⟨heq | hk, hks⟩
        · exact absurd (heq ▸ hin) hks
        · exact ⟨hk, hks⟩
    · rw [if_neg hin]
      simp only [List.map_cons, List.mem_cons, ih]
      constructor
      · rintro (heq | ⟨hk, hks⟩)
        · exact ⟨Or.inl heq, fun hx => hin (heq ▸ hx)⟩
        · exact ⟨Or.inr hk, fun hks' => hks (Or.inr hks')⟩
      · rintro ⟨heq | hk, hks⟩
        · exact Or.inl heq
        · by_cases hkr : k = rowKey r
          · exact Or.inl hkr
          · exact Or.inr ⟨hk, by simp [not_or, hkr, hks]⟩

theorem dedupFirst_keys_mem (rows : List Row) (k : String) :
    k ∈ (dedupFirst rows).map rowKey ↔ k ∈ rows.map rowKey := by
  rw [dedupFirst, dedupFirstAux_keys_mem]
  simp

theorem prepared_keys_mem (b : Bool) (batch : List Row) (k : String) :
    k ∈ (prepareData b batch).map rowKey ↔ ∃ r ∈ batch, replaceNl (rowKey r) = k := by
  cases b
  · constructor
    · intro hk
      obtain ⟨x, hx, hxk⟩ := List.mem_map.mp hk
      obtain ⟨y, hy, rfl⟩ := List.mem_map.mp hx
      obtain ⟨r, hr, rfl⟩ := List.mem_map.mp hy
      exact ⟨r, hr, hxk⟩
    · rintro ⟨r, hr, hrk⟩
      apply List.mem_map.mpr
      refine ⟨rowReplaceNl (keyOnlyRow (rowKey r)), ?_, hrk⟩
      exact List.mem_map.mpr ⟨keyOnlyRow (rowKey r),
        List.mem_map.mpr ⟨r, hr, rfl⟩, rfl⟩
  · constructor
    · intro hk
      obtain ⟨x, hx, hxk⟩ := List.mem_map.mp hk
      obtain ⟨y, hy, rfl⟩ := List.mem_map.mp hx
      have hmem : rowKey y ∈ (dedupFirst batch).map rowKey :=
        List.mem_map.mpr ⟨y, hy, rfl⟩
      obtain ⟨r, hr, hrk⟩ := List.mem_map.mp ((dedupFirst_keys_mem batch (rowKey y)).mp hmem)
      refine ⟨r, hr, ?_⟩
      rw [hrk]
      exact hxk
    · rintro ⟨r, hr, hrk⟩
      have h1 : rowKey r ∈ batch.map rowKey := List.mem_map.mpr ⟨r, hr, rfl⟩
      obtain ⟨y, hy, hyk⟩ :=
        List.mem_map.mp ((dedupFirst_keys_mem batch (rowKey r)).mpr h1)
      apply List.mem_map.mpr
      refine ⟨rowReplaceNl y, List.mem_map.mpr ⟨y, hy, rfl⟩, ?_⟩
      show replaceNl (rowKey y) = k
      rw [hyk]
      exact hrk

theorem staged_match_mono (A B C mainR : List Row) (k : String)
    (h : ∀ v, v ∈ B.map rowKey → v ∈ C.map rowKey)
    (hx : ∃ t ∈ A ++ B, k = rowKey t ∧ ∃ m ∈ mainR, rowKey m = rowKey t) :
    ∃ t ∈ A ++ C, k = rowKey t ∧ ∃ m ∈ mainR, rowKey m = rowKey t := by
  obtain ⟨t, ht, rfl, hQ⟩ := hx
  rcases List.mem_append.mp ht with hA | hB
  · exact ⟨t, List.mem_append.mpr (Or.inl hA), rfl, hQ⟩
  · obtain ⟨u, hu, huk⟩ := List.mem_map.mp (h _ (List.mem_map.mpr ⟨t, hB, rfl⟩))
    refine ⟨u, List.mem_append.mpr (Or.inr hu), huk.symm, ?_⟩
    rw [huk]
    exact hQ

theorem contains_congr {A B : List String} (h : ∀ k, k ∈ A ↔ k ∈ B) (x : String) :
    A.contains x = B.contains x := by
  by_cases hx : x ∈ A
  · have h1 : A.contains x = true := List.elem_iff.mpr hx
    have h2 : B.contains x = true := List.elem_iff.mpr ((h x).mp hx)
    rw [h1, h2]
  · have h1 : A.contains x = false := by
      cases hA : A.contains x
      · rfl
      · exact absurd (List.elem_iff.mp hA) hx
    rw [h1]
    cases hB : B.contains x
    · rfl
    · exact absurd ((h x).mpr (List.elem_iff.mp hB)) hx

theorem reportColumn_congr {batch : List Row} {A B : List String}
    (h : ∀ k, k ∈ A ↔ k ∈ B) : reportColumn batch A = reportColumn batch B := by
  unfold reportColumn
  have hfun : classifyRowStr batch A = classifyRowStr batch B := funext fun r => by
    unfold classifyRowStr resultCode
    rw [contains_congr h (rowKey r)]
  rw [hfun]

theorem runDedupe_matchKeys (b : Bool) (batch : List Row) (s0 : DBState) :
    (runDedupe b batch s0).2.1
      = getDuplicatesTable (joinTables (stageTemp (prepareData b batch) s0)) := by
  cases b <;> rfl

/-- C5: with the commit flag off, the run leaves the main table exactly as
it was (no insert, no delete), while the match-key set it reads back and the
per-record classification report are the same as in commit mode. -/
theorem check_only_preserves_main_and_report (batch : List Row) (s0 : DBState) :
    (runDedupe false batch s0).1.main = s0.main
      ∧ (∀ k, k ∈ (runDedupe false batch s0).2.1 ↔ k ∈ (runDedupe true batch s0).2.1)
      ∧ (runDedupe false batch s0).2.2 = (runDedupe true batch s0).2.2 := by
  have hkeys : ∀ k, k ∈ (runDedupe false batch s0).2.1
      ↔ k ∈ (runDedupe true batch s0).2.1 := by
    intro k
    rw [runDedupe_matchKeys, runDedupe_matchKeys, mem_joinKeys, mem_joinKeys]
    simp only [stageTemp]
    constructor
    · exact staged_match_mono _ _ _ _ _
        (fun v hv => (prepared_keys_mem true batch v).mpr
          ((prepared_keys_mem false batch v).mp hv))
    · exact staged_match_mono _ _ _ _ _
        (fun v hv => (prepared_keys_mem false batch v).mpr
          ((prepared_keys_mem true batch v).mp hv))
  refine ⟨rfl, hkeys, ?_⟩
  exact reportColumn_congr hkeys

/-- C7: for a fixed cleaned batch and fixed main-table contents, the
commit-mode staged shape (deduplicated full rows) and the check-only staged
shape (key-only rows per occurrence) produce the same set of match-key
values, and hence the same classification for every record. -/
theorem modes_agree_on_match_key_set (batch mainRows : List Row) :
    (∀ k, k ∈ matchKeysFor true batch mainRows ↔ k ∈ matchKeysFor false batch mainRows)
      ∧ reportColumn batch (matchKeysFor true batch mainRows)
          = reportColumn batch (matchKeysFor false batch mainRows) := by
  have hkeys : ∀ k, k ∈ matchKeysFor true batch mainRows
      ↔ k ∈ matchKeysFor false batch mainRows := by
    intro k
    unfold matchKeysFor
    rw [mem_joinKeys, mem_joinKeys]
    constructor
    · rintro ⟨t, ht, rfl, hQ⟩
      obtain ⟨u, hu, huk⟩ := List.mem_map.mp
        ((prepared_keys_mem false batch (rowKey t)).mpr
          ((prepared_keys_mem true batch (rowKey t)).mp (List.mem_map.mpr ⟨t, ht, rfl⟩)))
      refine ⟨u, hu, huk.symm, ?_⟩
      rw [huk]
      exact hQ
    · rintro ⟨t, ht, rfl, hQ⟩
      obtain ⟨u, hu, huk⟩ := List.mem_map.mp
        ((prepared_keys_mem true batch (rowKey t)).mpr
          ((prepared_keys_mem false batch (rowKey t)).mp (List.mem_map.mpr ⟨t, ht, rfl⟩)))
      refine ⟨u, hu, huk.symm, ?_⟩
      rw [huk]
      exact hQ
  exact ⟨hkeys, reportColumn_congr hkeys⟩

/-- C9 counterexample: with a header containing `Phone` but not `Supplier`,
the error is raised, but its message lists `Phone` — a label that is present,
not missing — because line 274 joins ALL required labels. -/
theorem missing_columns_message_lists_present_label :
    checkRequiredColumns ["Phone"] = Except.error "Required columns missing: Phone, Supplier"
      ∧ "Phone" ∈ (["Phone"] : List String) :=
  ⟨rfl, by simp⟩

/-- C9 amended: the check raises its schema-violation error exactly when at
least one required label is absent from the header, and the message lists
all required labels (not only the missing ones). -/
theorem missing_columns_error_iff_label_absent (header : List String) :
    checkRequiredColumns header = Except.error missingColumnsMessage
      ↔ ∃ l ∈ requiredLabels, l ∉ header := by
  unfold checkRequiredColumns
  by_cases h : requiredLabels.all (fun l => header.contains l) = true
  · rw [if_pos h]
    simp only [List.all_eq_true] at h
    constructor
    · intro hcontra
      exact Except.noConfusion hcontra
    · rintro ⟨l, hl, hnot⟩
      exact (hnot (List.elem_iff.mp (h l hl))).elim
  · rw [if_neg h]
    constructor
    · intro _
      simp only [List.all_eq_true] at h
      push_neg at h
      obtain ⟨l, hl, hlc⟩ := h
      refine ⟨l, hl, fun hmem => hlc ?_⟩
      exact List.elem_iff.mpr hmem
    · intro _
      rfl

theorem opt_not_isNone (o : Option String) : (!o.isNone) = o.isSome := by
  cases o <;> rfl

theorem hasValue_eq (r : RawRow) : (!rawRowAllNa r) = rawRowHasValue r := by
  unfold rawRowAllNa rawRowHasValue
  simp only [Bool.not_and, opt_not_isNone]

/-- C10: the `total_input_rows` figure of the summary counts exactly the raw
input rows with at least one non-blank field: all-blank rows are dropped by
the read before the count is taken, while rows later removed by rule-based
validation are still included (the count is taken before cleaning). -/
theorem total_input_rows_counts_nonblank_rows (parse : String → Option String)
    (addToDb : Bool) (raw : List RawRow) (s0 : DBState) :
    (fullRun parse addToDb raw s0).2.2 = (raw.filter rawRowHasValue).length := by
  show (readDataFile raw).length = _
  unfold readDataFile
  rw [List.filter_congr (fun r _ => hasValue_eq r)]

/-- C3 counterexample: with a fault injected at the join step in check-only
mode, `dedupe()` propagates the error while the staged rows are still in the
scratch table — the reset never ran, contrary to the claim. -/
theorem reset_skipped_on_join_failure :
    dedupeRun joinFaultOnly false [row0] emptyState = Except.error c3ErrState
      ∧ c3ErrState.temp ≠ [] := by
  constructor
  · rfl
  · decide

/-- C3 amended: the scratch-area reset executes on every run that completes
successfully (any `ok` result has an empty `temp_data`); when a staging,
join, purge or commit step fails, the error propagates without the reset
executing (see the counterexample). -/
theorem reset_runs_on_successful_runs (faults : DbStep → Bool) (addToDb : Bool)
    (batch : List Row) (s0 : DBState)
    (res : DBState × List String × List Classification)
    (h : dedupeRun faults addToDb batch s0 = Except.ok res) : res.1.temp = [] := by
  unfold dedupeRun at h
  split at h
  · exact Except.noConfusion h
  · split at h
    · exact Except.noConfusion h
    · split at h
      · exact Except.noConfusion h
      · split at h
        · exact Except.noConfusion h
        · rename_i s3 hstep
          injection h with h'
          subst h'
          unfold runStep at hstep
          split at hstep
          · exact Except.noConfusion hstep
          · injection hstep with h''
            rw [← h'']
            rfl

/-- Witness for C3's amended theorem on a fault-free check-only run. -/
theorem reset_runs_on_successful_runs_witness :
    ((({ main := [], temp := [], dups := [] } : DBState), ([] : List String),
        [Classification.unique]) :
      DBState × List String × List Classification).1.temp = [] :=
  reset_runs_on_successful_runs noFaults false [row0] emptyState
    (({ main := [], temp := [], dups := [] } : DBState), ([] : List String),
      [Classification.unique]) rfl

end DataDeduper
